import Mathlib

/-!
Shallow embedding of the log segment in `src/log/log.rs` of the rufka
repository: a fixed-capacity, append-only storage segment backed by a
memory-mapped file.

Modelling choices:
* The mapped region (`mmap: MmapMut`) is a `List Nat` of byte values; its
  length plays the role of `self.mmap.len()`.  The `file: File` handle is
  not modelled beyond the outcomes of the fallible filesystem calls.
* `usize` values are `Nat`; `max_size - offset` is Nat (truncated)
  subtraction, which agrees with Rust's `usize` subtraction whenever
  `offset <= max_size` (the invariant the code maintains).
* Methods taking `&mut self` are state-passing functions returning the
  final state alongside the result, so frame properties are statable.
* Fallible OS calls (`create_dir_all`, `open`, `set_len`, `map_mut`,
  `flush_async`) are modelled by passing their outcomes in as values; a
  `.unwrap()` on a failed call is the `panic` outcome, a `?` on a failed
  call is a returned error.
* `OpenOptions::new().write(true).read(true).append(true).create(true)`
  opens a pre-existing file at the segment path without truncating it, so
  the environment also carries the content the file had before the open
  (empty when the file is newly created); `set_len` then zero-extends a
  shorter file and truncates a longer one.
-/

/-- An opaque OS-level failure value (the payload of a Rust `io::Error`). -/
structure IoErr where
  code : Nat
  deriving DecidableEq, Repr

/-- The error enum of `log.rs`: `Io(io::Error)`, `NoSpaceLeft`, `InvalidIndex`. -/
inductive Error where
  | Io : IoErr → Error
  | NoSpaceLeft : Error
  | InvalidIndex : Error
  deriving DecidableEq, Repr

/-- The `Log` struct: `base_offset`, `max_size`, the write cursor `offset`,
and the mapped region `mmap` as a list of byte values.  (The `file` handle
carries no further state relevant to the embedded operations.) -/
structure Log where
  base_offset : Nat
  max_size : Nat
  offset : Nat
  mmap : List Nat
  deriving DecidableEq, Repr

/-- Outcomes of the fallible filesystem calls made by `Log::new`, passed in
as an environment: `fs::create_dir_all`, `OpenOptions::open`,
`File::set_len`, `MmapMut::map_mut`; and the byte content the file at the
segment path had before the open — `[]` when no file existed there
(`create(true)` creates it empty, and does not truncate an existing one). -/
structure FsEnv where
  create_dir_res : Except IoErr Unit
  open_res : Except IoErr Unit
  set_len_res : Except IoErr Unit
  map_mut_res : Except IoErr Unit
  existing_content : List Nat

/-- What `Log::new` can do: abort the process (a `.unwrap()` on an `Err`),
return `Err(e)` (a `?` on an `Err`), or return `Ok(log)`. -/
inductive NewOutcome where
  | panic : NewOutcome
  | error : IoErr → NewOutcome
  | ok : Log → NewOutcome
  deriving DecidableEq

/-- `format!("{:020}", n)`: decimal digits of `n` left-padded with zeros to
width 20. -/
def zeroPad20 (n : Nat) : String :=
  let s := toString n
  String.mk (List.replicate (20 - s.length) '0') ++ s

/-- `format!("{:020}.log{}", base_offset, suffix)`: the file name of the
segment. -/
def segment_file_name (base_offset : Nat) (suffix : String) : String :=
  zeroPad20 base_offset ++ ".log" ++ suffix

/-- `path.join(...)`: the full path of the segment file. -/
def segment_path (path : String) (base_offset : Nat) (suffix : String) : String :=
  path ++ "/" ++ segment_file_name base_offset suffix

/-- `File::set_len(max_size)` applied to a file currently holding `c`:
zero-extends a shorter file and truncates a longer one (a no-op when the
length is already `max_size`). -/
def setLenContent (c : List Nat) (max_size : Nat) : List Nat :=
  c.take max_size ++ List.replicate (max_size - c.length) 0

/-- `Log::new(path, base_offset, max_size, suffix)`.  `create_dir_all` and
`open` are followed by `.unwrap()` in the source, so their failures abort;
`set_len` and `map_mut` use `?`, so their failures are returned.  On success
the mapped region is the file's prior content forced to length `max_size` by
`set_len` (all zeros only when no file pre-existed at the segment path), and
the cursor is hard-coded to `0`. -/
def Log.new (env : FsEnv) (path : String) (base_offset : Nat) (max_size : Nat)
    (suffix : String) : NewOutcome :=
  match env.create_dir_res with
  | Except.error _ => NewOutcome.panic
  | Except.ok _ =>
    match env.open_res with
    | Except.error _ => NewOutcome.panic
    | Except.ok _ =>
      match env.set_len_res with
      | Except.error e => NewOutcome.error e
      | Except.ok _ =>
        match env.map_mut_res with
        | Except.error e => NewOutcome.error e
        | Except.ok _ =>
          NewOutcome.ok
            { base_offset := base_offset, max_size := max_size, offset := 0,
              mmap := setLenContent env.existing_content max_size }

/-- `Log::fit(&mut self, size) -> bool`: `(self.max_size - self.offset) >= size`.
Takes `&mut self` in the source but assigns no field, so the returned state
is the input state. -/
def Log.fit (l : Log) (size : Nat) : Bool × Log :=
  (decide ((l.max_size - l.offset) ≥ size), l)

/-- `Log::write(&mut self, buf) -> Result<usize, Error>`: if `!self.fit(buf.len())`
return `Err(NoSpaceLeft)`; otherwise `self.offset += buf_size` and copy `buf`
into `self.mmap[(self.offset - buf_size)..self.offset]`; the slice `write`
returns `buf_size` (the slice has exactly that length whenever the range is
within the mapped region, which `fit` guarantees when `mmap.length = max_size`). -/
def Log.write (l : Log) (buf : List Nat) : Except Error Nat × Log :=
  let buf_size := buf.length
  let fr := l.fit buf_size
  if fr.1 = false then (Except.error Error.NoSpaceLeft, fr.2)
  else
    let offset' := fr.2.offset + buf_size
    (Except.ok buf_size,
      { fr.2 with offset := offset',
                  mmap := fr.2.mmap.take (offset' - buf_size) ++ buf ++
                          fr.2.mmap.drop offset' })

/-- `Log::read_at(&mut self, offset, size) -> Result<&[u8], Error>`: if
`offset + size > self.mmap.len()` return `Err(InvalidIndex)`, else the slice
`self.mmap[offset..offset + size]`.  No field is assigned. -/
def Log.read_at (l : Log) (offset : Nat) (size : Nat) :
    Except Error (List Nat) × Log :=
  if offset + size > l.mmap.length then (Except.error Error.InvalidIndex, l)
  else (Except.ok ((l.mmap.drop offset).take size), l)

/-- `Log::flush(&mut self)`: `self.mmap.flush_async()?`, wrapping an OS
failure into `Error::Io`.  No field is assigned. -/
def Log.flush (l : Log) (osResult : Except IoErr Unit) : Except Error Unit × Log :=
  match osResult with
  | Except.error e => (Except.error (Error.Io e), l)
  | Except.ok _ => (Except.ok (), l)

/-- The segment states reachable through the public operations, starting
from a successful `Log::new`. -/
inductive Reachable : Log → Prop where
  | new : ∀ env path b m s l, Log.new env path b m s = NewOutcome.ok l → Reachable l
  | write : ∀ l buf, Reachable l → Reachable (l.write buf).2
  | read_at : ∀ l o s, Reachable l → Reachable (l.read_at o s).2
  | fit : ∀ l s, Reachable l → Reachable (l.fit s).2
  | flush : ∀ l r, Reachable l → Reachable (l.flush r).2

/-- The segment states reachable through the public operations, starting
from a successful `Log::new` that found no pre-existing file content at the
segment path (the file was created fresh and zero-extended). -/
inductive FreshReachable : Log → Prop where
  | new : ∀ env path b m s l, env.existing_content = [] →
      Log.new env path b m s = NewOutcome.ok l → FreshReachable l
  | write : ∀ l buf, FreshReachable l → FreshReachable (l.write buf).2
  | read_at : ∀ l o s, FreshReachable l → FreshReachable (l.read_at o s).2
  | fit : ∀ l s, FreshReachable l → FreshReachable (l.fit s).2
  | flush : ∀ l r, FreshReachable l → FreshReachable (l.flush r).2

/-- The segment invariant every reachable state keeps: the cursor is within
bounds and the mapped region has exactly `max_size` bytes. -/
def GoodLog (l : Log) : Prop :=
  l.offset ≤ l.max_size ∧ l.mmap.length = l.max_size

/-- Everything at or past the cursor is zero — kept only by segments whose
backing file was created fresh, not by ones that reopened an existing file. -/
def ZeroSuffix (l : Log) : Prop :=
  l.mmap.drop l.offset = List.replicate (l.max_size - l.offset) 0

/-- An environment in which every filesystem call succeeds and no file
pre-existed at the segment path. -/
def sampleEnv : FsEnv :=
  ⟨Except.ok (), Except.ok (), Except.ok (), Except.ok (), []⟩

/-- The segment `Log.new sampleEnv "d" 0 4 ""` yields: capacity 4, cursor 0,
all-zero mapped region. -/
def sampleLog : Log :=
  Log.mk 0 4 0 [0, 0, 0, 0]

theorem write_of_fit (l : Log) (buf : List Nat)
    (h : buf.length ≤ l.max_size - l.offset) :
    l.write buf = (Except.ok buf.length,
      { l with offset := l.offset + buf.length,
               mmap := l.mmap.take l.offset ++ buf ++
                       l.mmap.drop (l.offset + buf.length) }) := by
  simp [Log.write, Log.fit, h, Nat.add_sub_cancel]

theorem write_of_not_fit (l : Log) (buf : List Nat)
    (h : ¬ buf.length ≤ l.max_size - l.offset) :
    l.write buf = (Except.error Error.NoSpaceLeft, l) := by
  simp [Log.write, Log.fit, h]

theorem write_concrete_eval : (Log.mk 0 4 0 [0, 0, 0, 0]).write [1, 2] =
    (Except.ok 2, Log.mk 0 4 2 [1, 2, 0, 0]) := rfl

theorem drop_append_length (l1 l2 : List Nat) (n : Nat) (h : l1.length = n) :
    (l1 ++ l2).drop n = l2 := by
  subst h
  exact List.drop_left l1 l2

theorem read_at_snd (l : Log) (o s : Nat) : (l.read_at o s).2 = l := by
  unfold Log.read_at
  split <;> rfl

theorem flush_snd (l : Log) (r : Except IoErr Unit) : (l.flush r).2 = l := by
  cases r <;> rfl

theorem fit_snd (l : Log) (s : Nat) : (l.fit s).2 = l := rfl

theorem new_ok_state (env : FsEnv) (path : String) (b m : Nat) (s : String)
    (l : Log) (h : Log.new env path b m s = NewOutcome.ok l) :
    l = Log.mk b m 0 (setLenContent env.existing_content m) := by
  obtain ⟨c, o, se, ma, ex⟩ := env
  cases c <;> cases o <;> cases se <;> cases ma <;> simp [Log.new] at h
  subst h
  rfl

theorem sampleLog_reachable : Reachable sampleLog :=
  Reachable.new sampleEnv "d" 0 4 "" sampleLog rfl

theorem sampleLog_fresh : FreshReachable sampleLog :=
  FreshReachable.new sampleEnv "d" 0 4 "" sampleLog rfl rfl

theorem good_new (env : FsEnv) (path : String) (b m : Nat) (s : String) (l : Log)
    (h : Log.new env path b m s = NewOutcome.ok l) : GoodLog l := by
  rw [new_ok_state env path b m s l h]
  refine ⟨Nat.zero_le _, ?_⟩
  simp [setLenContent]
  omega

theorem zero_new (env : FsEnv) (path : String) (b m : Nat) (s : String) (l : Log)
    (hex : env.existing_content = []) (h : Log.new env path b m s = NewOutcome.ok l) :
    ZeroSuffix l := by
  rw [new_ok_state env path b m s l h, hex]
  show List.drop 0 (setLenContent [] m) = _
  simp [setLenContent]

theorem good_write (l : Log) (buf : List Nat) (h : GoodLog l) :
    GoodLog (l.write buf).2 := by
  obtain ⟨hoff, hlen⟩ := h
  by_cases hfit : buf.length ≤ l.max_size - l.offset
  · rw [write_of_fit l buf hfit]
    refine ⟨by simp; omega, ?_⟩
    simp [List.length_take, List.length_drop]
    omega
  · rw [write_of_not_fit l buf hfit]
    exact ⟨hoff, hlen⟩

theorem zero_write (l : Log) (buf : List Nat) (h : GoodLog l) (hz : ZeroSuffix l) :
    ZeroSuffix (l.write buf).2 := by
  obtain ⟨hoff, hlen⟩ := h
  by_cases hfit : buf.length ≤ l.max_size - l.offset
  · rw [write_of_fit l buf hfit]
    have hpre : (l.mmap.take l.offset ++ buf).length = l.offset + buf.length := by
      simp [List.length_take]
      omega
    show (l.mmap.take l.offset ++ buf ++
        l.mmap.drop (l.offset + buf.length)).drop (l.offset + buf.length) =
      List.replicate (l.max_size - (l.offset + buf.length)) 0
    rw [← hpre, List.drop_left, hpre, ← List.drop_drop, hz,
      List.drop_replicate, Nat.sub_sub]
  · rw [write_of_not_fit l buf hfit]
    exact hz

theorem reachable_good (l : Log) (h : Reachable l) : GoodLog l := by
  induction h with
  | new env path b m s l hnew => exact good_new env path b m s l hnew
  | write l buf _ ih => exact good_write l buf ih
  | read_at l o s _ ih => rw [read_at_snd]; exact ih
  | fit l s _ ih => exact ih
  | flush l r _ ih => rw [flush_snd]; exact ih

theorem fresh_reachable_spec (l : Log) (h : FreshReachable l) :
    GoodLog l ∧ ZeroSuffix l := by
  induction h with
  | new env path b m s l hex hnew =>
      exact ⟨good_new env path b m s l hnew, zero_new env path b m s l hex hnew⟩
  | write l buf _ ih => exact ⟨good_write l buf ih.1, zero_write l buf ih.1 ih.2⟩
  | read_at l o s _ ih => rw [read_at_snd]; exact ih
  | fit l s _ ih => exact ih
  | flush l r _ ih => rw [flush_snd]; exact ih

/-- C1: Round-trip write/read: for every byte sequence `b` that fits in
remaining capacity, a successful `write b` returns `b.length`, increases the
cursor by exactly `b.length`, and a subsequent `read_at old_offset b.length`
returns exactly `b`. -/
theorem rufka_write_read_roundtrip (l : Log) (b : List Nat) (h : Reachable l)
    (hfit : (l.fit b.length).1 = true) :
    (l.write b).1 = Except.ok b.length ∧
    (l.write b).2.offset = l.offset + b.length ∧
    ((l.write b).2.read_at l.offset b.length).1 = Except.ok b := by
  obtain ⟨hoff, hlen⟩ := reachable_good l h
  have hfit' : b.length ≤ l.max_size - l.offset := by
    simpa [Log.fit] using hfit
  rw [write_of_fit l b hfit']
  refine ⟨rfl, rfl, ?_⟩
  have htl : (l.mmap.take l.offset).length = l.offset := by
    simp [List.length_take]
    omega
  unfold Log.read_at
  split
  · exfalso
    simp [List.length_take, List.length_drop] at *
    omega
  · show Except.ok (((l.mmap.take l.offset ++ b ++
        l.mmap.drop (l.offset + b.length)).drop l.offset).take b.length) = _
    rw [List.append_assoc, drop_append_length _ _ _ htl, List.take_left]

/-- C1 witness: the round-trip at the concrete reachable segment of capacity 4
with the two-byte sequence `[1, 2]`. -/
theorem rufka_write_read_roundtrip_instance :
    ((Log.mk 0 4 0 [0, 0, 0, 0]).write [1, 2]).1 = Except.ok ([1, 2] : List Nat).length ∧
    ((Log.mk 0 4 0 [0, 0, 0, 0]).write [1, 2]).2.offset =
      (Log.mk 0 4 0 [0, 0, 0, 0]).offset + ([1, 2] : List Nat).length ∧
    (((Log.mk 0 4 0 [0, 0, 0, 0]).write [1, 2]).2.read_at
      (Log.mk 0 4 0 [0, 0, 0, 0]).offset ([1, 2] : List Nat).length).1 =
      Except.ok [1, 2] :=
  rufka_write_read_roundtrip (Log.mk 0 4 0 [0, 0, 0, 0]) [1, 2]
    (Reachable.new ⟨Except.ok (), Except.ok (), Except.ok (), Except.ok (), []⟩
      "d" 0 4 "" _ rfl)
    (by decide)

/-- C2: Write capacity boundary and atomicity: `write b` fails with
`NoSpaceLeft` iff `b.length > max_size - offset`; on failure the whole state
is unchanged; a write of length exactly `max_size - offset` succeeds and
brings the cursor to `max_size`. -/
theorem rufka_write_capacity_boundary (l : Log) (h : Reachable l) (b : List Nat) :
    ((l.write b).1 = Except.error Error.NoSpaceLeft ↔
      b.length > l.max_size - l.offset) ∧
    (b.length > l.max_size - l.offset →
      l.write b = (Except.error Error.NoSpaceLeft, l)) ∧
    (b.length = l.max_size - l.offset →
      (l.write b).1 = Except.ok b.length ∧ (l.write b).2.offset = l.max_size) := by
  obtain ⟨hoff, hlen⟩ := reachable_good l h
  by_cases hfit : b.length ≤ l.max_size - l.offset
  · rw [write_of_fit l b hfit]
    refine ⟨by simp; omega, fun hgt => absurd hgt (by omega), fun heq => ⟨rfl, ?_⟩⟩
    show l.offset + b.length = l.max_size
    omega
  · rw [write_of_not_fit l b hfit]
    exact ⟨by simp; omega, fun _ => rfl, fun heq => absurd heq (by omega)⟩

/-- C2 witness: at the concrete reachable segment of capacity 4, a 5-byte
write fails leaving the state unchanged, and a 4-byte write fills the segment. -/
theorem rufka_write_capacity_boundary_instance :
    (((Log.mk 0 4 0 [0, 0, 0, 0]).write [9, 9, 9, 9, 9]).1 =
        Except.error Error.NoSpaceLeft ↔
      ([9, 9, 9, 9, 9] : List Nat).length >
        (Log.mk 0 4 0 [0, 0, 0, 0]).max_size - (Log.mk 0 4 0 [0, 0, 0, 0]).offset) ∧
    (([9, 9, 9, 9, 9] : List Nat).length >
        (Log.mk 0 4 0 [0, 0, 0, 0]).max_size - (Log.mk 0 4 0 [0, 0, 0, 0]).offset →
      (Log.mk 0 4 0 [0, 0, 0, 0]).write [9, 9, 9, 9, 9] =
        (Except.error Error.NoSpaceLeft, Log.mk 0 4 0 [0, 0, 0, 0])) ∧
    (([9, 9, 9, 9, 9] : List Nat).length =
        (Log.mk 0 4 0 [0, 0, 0, 0]).max_size - (Log.mk 0 4 0 [0, 0, 0, 0]).offset →
      ((Log.mk 0 4 0 [0, 0, 0, 0]).write [9, 9, 9, 9, 9]).1 =
          Except.ok ([9, 9, 9, 9, 9] : List Nat).length ∧
        ((Log.mk 0 4 0 [0, 0, 0, 0]).write [9, 9, 9, 9, 9]).2.offset =
          (Log.mk 0 4 0 [0, 0, 0, 0]).max_size) :=
  rufka_write_capacity_boundary (Log.mk 0 4 0 [0, 0, 0, 0])
    (Reachable.new ⟨Except.ok (), Except.ok (), Except.ok (), Except.ok (), []⟩
      "d" 0 4 "" _ rfl)
    [9, 9, 9, 9, 9]

/-- C3: read_at bounds: `read_at o s` fails with `InvalidIndex` iff
`o + s > max_size`; otherwise it returns the byte range `[o, o + s)` of the
mapped region, with no bounds check against the write cursor. -/
theorem rufka_read_at_bounds (l : Log) (h : Reachable l) (o s : Nat) :
    ((l.read_at o s).1 = Except.error Error.InvalidIndex ↔ o + s > l.max_size) ∧
    (o + s ≤ l.max_size →
      (l.read_at o s).1 = Except.ok ((l.mmap.drop o).take s)) := by
  obtain ⟨-, hlen⟩ := reachable_good l h
  unfold Log.read_at
  rw [hlen]
  by_cases hc : o + s > l.max_size
  · rw [if_pos hc]
    exact ⟨iff_of_true rfl hc, fun hle => absurd hc (by omega)⟩
  · rw [if_neg hc]
    exact ⟨iff_of_false (by simp) hc, fun _ => rfl⟩

/-- C3 witness: at the concrete reachable segment of capacity 4 with cursor 0,
the in-bounds range `[1, 4)` (beyond the cursor) succeeds and `[1, 5)` fails. -/
theorem rufka_read_at_bounds_instance :
    ((((Log.mk 0 4 0 [0, 0, 0, 0]).read_at 1 3).1 =
        Except.error Error.InvalidIndex ↔
      1 + 3 > (Log.mk 0 4 0 [0, 0, 0, 0]).max_size) ∧
    (1 + 3 ≤ (Log.mk 0 4 0 [0, 0, 0, 0]).max_size →
      ((Log.mk 0 4 0 [0, 0, 0, 0]).read_at 1 3).1 =
        Except.ok (((Log.mk 0 4 0 [0, 0, 0, 0]).mmap.drop 1).take 3))) ∧
    (((Log.mk 0 4 0 [0, 0, 0, 0]).read_at 1 4).1 =
        Except.error Error.InvalidIndex ↔
      1 + 4 > (Log.mk 0 4 0 [0, 0, 0, 0]).max_size) :=
  ⟨rufka_read_at_bounds (Log.mk 0 4 0 [0, 0, 0, 0])
      (Reachable.new ⟨Except.ok (), Except.ok (), Except.ok (), Except.ok (), []⟩
        "d" 0 4 "" _ rfl) 1 3,
    (rufka_read_at_bounds (Log.mk 0 4 0 [0, 0, 0, 0])
      (Reachable.new ⟨Except.ok (), Except.ok (), Except.ok (), Except.ok (), []⟩
        "d" 0 4 "" _ rfl) 1 4).1⟩

/-- C4: Cursor invariant: every reachable state has `0 <= offset <= max_size`;
the cursor is monotonically non-decreasing across every operation — `new`
initialises it to 0, `read_at`, `fit` and `flush` never change it, a failed
`write` leaves it unchanged, and only a successful `write` increases it (by
the written length). -/
theorem rufka_cursor_invariant (l : Log) (h : Reachable l) :
    (0 ≤ l.offset ∧ l.offset ≤ l.max_size) ∧
    (∀ env path b m s l0, Log.new env path b m s = NewOutcome.ok l0 →
      l0.offset = 0) ∧
    (∀ buf, l.offset ≤ (l.write buf).2.offset ∧
      (l.write buf).2.offset ≤ l.max_size) ∧
    (∀ buf n l', l.write buf = (Except.ok n, l') →
      l'.offset = l.offset + buf.length) ∧
    (∀ buf e l', l.write buf = (Except.error e, l') → l'.offset = l.offset) ∧
    (∀ o s, (l.read_at o s).2.offset = l.offset) ∧
    (∀ s, (l.fit s).2.offset = l.offset) ∧
    (∀ r, (l.flush r).2.offset = l.offset) := by
  obtain ⟨hoff, hlen⟩ := reachable_good l h
  refine ⟨⟨Nat.zero_le _, hoff⟩, ?_, ?_, ?_, ?_, ?_, ?_, ?_⟩
  · intro env path b m s l0 hn
    rw [new_ok_state env path b m s l0 hn]
  · intro buf
    by_cases hfit : buf.length ≤ l.max_size - l.offset
    · rw [write_of_fit l buf hfit]
      constructor
      · simp
      · show l.offset + buf.length ≤ l.max_size
        omega
    · rw [write_of_not_fit l buf hfit]
      exact ⟨le_refl _, hoff⟩
  · intro buf n l' hw
    by_cases hfit : buf.length ≤ l.max_size - l.offset
    · rw [write_of_fit l buf hfit, Prod.mk.injEq] at hw
      rw [← hw.2]
    · rw [write_of_not_fit l buf hfit, Prod.mk.injEq] at hw
      exact absurd hw.1 (by simp)
  · intro buf e l' hw
    by_cases hfit : buf.length ≤ l.max_size - l.offset
    · rw [write_of_fit l buf hfit, Prod.mk.injEq] at hw
      exact absurd hw.1 (by simp)
    · rw [write_of_not_fit l buf hfit, Prod.mk.injEq] at hw
      rw [← hw.2]
  · intro o s
    rw [read_at_snd]
  · intro s
    rfl
  · intro r
    rw [flush_snd]

/-- C4 witness: the cursor invariant at the concrete reachable segment
`sampleLog`. -/
theorem rufka_cursor_invariant_instance :
    (0 ≤ sampleLog.offset ∧ sampleLog.offset ≤ sampleLog.max_size) ∧
    (∀ env path b m s l0, Log.new env path b m s = NewOutcome.ok l0 →
      l0.offset = 0) ∧
    (∀ buf, sampleLog.offset ≤ (sampleLog.write buf).2.offset ∧
      (sampleLog.write buf).2.offset ≤ sampleLog.max_size) ∧
    (∀ buf n l', sampleLog.write buf = (Except.ok n, l') →
      l'.offset = sampleLog.offset + buf.length) ∧
    (∀ buf e l', sampleLog.write buf = (Except.error e, l') →
      l'.offset = sampleLog.offset) ∧
    (∀ o s, (sampleLog.read_at o s).2.offset = sampleLog.offset) ∧
    (∀ s, (sampleLog.fit s).2.offset = sampleLog.offset) ∧
    (∀ r, (sampleLog.flush r).2.offset = sampleLog.offset) :=
  rufka_cursor_invariant sampleLog sampleLog_reachable

/-- C5 counterexample: a directory-creation failure during construction does
not surface as an I/O error result — the source calls `.unwrap()` on it, so
the process aborts. -/
theorem rufka_new_dir_failure_aborts :
    Log.new ⟨Except.error ⟨1⟩, Except.ok (), Except.ok (), Except.ok (), []⟩
      "d" 0 10 "" = NewOutcome.panic := rfl

/-- C5 (amended): construction is only partially fallible: `set_len` and
`map_mut` failures surface as I/O error results and a fully successful
environment yields `ok`, but directory-creation and file-open failures abort
the process (the source unwraps them). -/
theorem rufka_new_fallibility (env : FsEnv) (path : String) (b m : Nat)
    (s : String) :
    (Log.new env path b m s = NewOutcome.panic ↔
      (∃ e, env.create_dir_res = Except.error e) ∨
      ((∃ u, env.create_dir_res = Except.ok u) ∧
        ∃ e, env.open_res = Except.error e)) ∧
    (∀ e, Log.new env path b m s = NewOutcome.error e →
      env.set_len_res = Except.error e ∨
        ((∃ u, env.set_len_res = Except.ok u) ∧
          env.map_mut_res = Except.error e)) ∧
    (env.create_dir_res = Except.ok () → env.open_res = Except.ok () →
      env.set_len_res = Except.ok () → env.map_mut_res = Except.ok () →
      Log.new env path b m s =
        NewOutcome.ok (Log.mk b m 0 (setLenContent env.existing_content m))) := by
  obtain ⟨c, o, se, ma, ex⟩ := env
  cases c <;> cases o <;> cases se <;> cases ma <;>
    refine ⟨?_, ?_, ?_⟩ <;> simp [Log.new]

/-- C6: fit specification: `fit size` returns exactly whether
`max_size - offset >= size`, and changes no part of the segment state. -/
theorem rufka_fit_spec (l : Log) (s : Nat) :
    ((l.fit s).1 = true ↔ l.max_size - l.offset ≥ s) ∧ (l.fit s).2 = l :=
  ⟨by simp [Log.fit], rfl⟩

/-- C7 counterexample: when `Log::new` reopens a pre-existing segment file
whose bytes are not zero (here `[7, 7]`, capacity 2), the resulting state is
reachable, its cursor is 0, yet the byte at position 0 — inside
`[offset, max_size)` — is 7, and `read_at` past the cursor returns it. -/
theorem rufka_unwritten_nonzero_on_reopen :
    Reachable (Log.mk 0 2 0 [7, 7]) ∧
    (Log.mk 0 2 0 [7, 7]).offset = 0 ∧
    (Log.mk 0 2 0 [7, 7]).mmap.getD 0 0 = 7 ∧
    ((Log.mk 0 2 0 [7, 7]).read_at 0 1).1 = Except.ok [7] :=
  ⟨Reachable.new ⟨Except.ok (), Except.ok (), Except.ok (), Except.ok (), [7, 7]⟩
      "d" 0 2 "" (Log.mk 0 2 0 [7, 7]) rfl,
    rfl, rfl, rfl⟩

/-- C7 (amended): Unwritten region reads as zero for freshly created
segments: in every state reachable from a construction that found no
pre-existing file at the segment path, every byte at a position in
`[offset, max_size)` is zero, and every `read_at` range at or past the
cursor but within `max_size` returns only zero bytes.  (A construction that
reopens an existing non-zero file violates this, see the counterexample.) -/
theorem rufka_unwritten_reads_zero (l : Log) (h : FreshReachable l) :
    (∀ i, l.offset ≤ i → i < l.max_size → l.mmap.getD i 0 = 0) ∧
    (∀ o s, l.offset ≤ o → o + s ≤ l.max_size →
      (l.read_at o s).1 = Except.ok (List.replicate s 0)) := by
  obtain ⟨⟨hoff, hlen⟩, hzero⟩ := fresh_reachable_spec l h
  rw [ZeroSuffix] at hzero
  have hdrop : ∀ o, l.offset ≤ o →
      l.mmap.drop o = List.replicate (l.max_size - o) 0 := by
    intro o ho
    have h1 : l.mmap.drop o = (l.mmap.drop l.offset).drop (o - l.offset) := by
      rw [List.drop_drop]
      congr 1
      omega
    rw [h1, hzero, List.drop_replicate]
    congr 1
    omega
  constructor
  · intro i hi hilt
    have h2 : l.mmap[i]? = some 0 := by
      have h3 := List.getElem?_drop l.mmap i 0
      rw [Nat.add_zero] at h3
      rw [← h3, hdrop i hi, List.getElem?_replicate]
      have h4 : 0 < l.max_size - i := by omega
      simp [h4]
    simp [List.getD_eq_getElem?_getD, h2]
  · intro o s ho hb
    unfold Log.read_at
    rw [if_neg (show ¬ o + s > l.mmap.length by omega)]
    show Except.ok (List.take s (List.drop o l.mmap)) = _
    have hmin : List.take s (List.replicate (l.max_size - o) (0 : Nat)) =
        List.replicate s 0 := by
      rw [List.take_replicate]
      congr 1
      omega
    rw [hdrop o ho, hmin]

/-- C7 witness: the zero-fill property at the concrete freshly created
segment `sampleLog`. -/
theorem rufka_unwritten_reads_zero_instance :
    (∀ i, sampleLog.offset ≤ i → i < sampleLog.max_size →
      sampleLog.mmap.getD i 0 = 0) ∧
    (∀ o s, sampleLog.offset ≤ o → o + s ≤ sampleLog.max_size →
      (sampleLog.read_at o s).1 = Except.ok (List.replicate s 0)) :=
  rufka_unwritten_reads_zero sampleLog sampleLog_fresh

/-- C8: Creation naming and initial state: the segment file is created at
`<dir>/<base_offset zero-padded to 20 decimal digits>.log<suffix>` (base
offset 0 with empty suffix yields `00000000000000000000.log`, and the padded
stem has exactly 20 digits whenever the base offset has at most 20), and a
freshly constructed segment has cursor 0. -/
theorem rufka_creation_naming_initial_state :
    segment_path "dir" 0 "" = "dir/00000000000000000000.log" ∧
    (∀ path b s, segment_path path b s =
      path ++ "/" ++ (zeroPad20 b ++ ".log" ++ s)) ∧
    (∀ b, (zeroPad20 b).length = max 20 (toString b).length) ∧
    (∀ env path b m s l, Log.new env path b m s = NewOutcome.ok l →
      l.offset = 0) := by
  refine ⟨by decide, fun path b s => rfl, fun b => ?_,
    fun env path b m s l hn => ?_⟩
  · show (String.mk (List.replicate (20 - (toString b).length) '0') ++
      toString b).length = _
    rw [String.length_append, String.length_mk, List.length_replicate]
    omega
  · rw [new_ok_state env path b m s l hn]

/-- C9: Zero-length write edge case: in every segment state, also a full one,
writing the empty byte sequence succeeds, returns 0, and leaves the whole
state unchanged. -/
theorem rufka_write_empty_noop (l : Log) : l.write [] = (Except.ok 0, l) := by
  have h : ([] : List Nat).length ≤ l.max_size - l.offset := by simp
  rw [write_of_fit l [] h]
  obtain ⟨b0, m0, o0, mm0⟩ := l
  simp

/-- C10: read_at is non-mutating: whether it succeeds or fails, `read_at`
returns the segment with every field (cursor, base_offset, max_size, mapped
contents) unchanged. -/
theorem rufka_read_at_nonmutating (l : Log) (o s : Nat) : (l.read_at o s).2 = l :=
  read_at_snd l o s
